import Mathlib

/-!
Shallow embedding of the grading and scoring subsystem of the quiz_ai
repository: `quizapp/models.py` (auto-grading of choice answers),
`quizapp/llm_service.py` (group-test AI grading orchestrator, fallback
policy and final score aggregation) and `quizapp/views.py` (leaderboard).

Python floats are modelled as exact rationals (`ℚ`); Python ints as `ℤ`
or `ℕ` where the source guarantees non-negativity.
-/

namespace QuizAI

/-- Python `max(0, min(100, x))` as used on every model-reported score. -/
def clamp0100 (x : ℚ) : ℚ := max 0 (min 100 x)

/-- Python `int(x)` applied to a float: truncation toward zero. -/
def pyInt (x : ℚ) : ℤ := if 0 ≤ x then ⌊x⌋ else ⌈x⌉

/-- Python built-in `round` to an integer (banker's rounding: halves go to
the nearest even integer); used only to state the spec's claimed formula. -/
def pyRound (x : ℚ) : ℤ :=
  if x - ⌊x⌋ = 1/2 then (if 2 ∣ ⌊x⌋ then ⌊x⌋ else ⌊x⌋ + 1) else ⌊x + 1/2⌋

/-! ## Domain model (`quizapp/models.py`) -/

/-- `Question` rows: the fields the grading subsystem reads.
`question_type` is a free-form `CharField` with choices `mcq`/`truefalse`;
`options` holds the option strings (for text questions, `options[0]` is the
expected answer); `correct_option` is a 0-based index; `points` defaults
to 1. -/
structure Question where
  question_text : String
  question_type : String
  options : List String
  correct_option : ℤ
  points : ℕ
deriving Repr, DecidableEq

/-- `StudentAnswer` rows: `selected_option` is a nullable integer column,
`is_correct` defaults to `False` and `points_earned` to `0`. -/
structure StudentAnswer where
  selected_option : Option ℤ
  is_correct : Bool := false
  points_earned : ℤ := 0
deriving Repr, DecidableEq

/-- `StudentAnswer.auto_grade`: for `mcq`/`truefalse` questions, compare the
selected option to the correct one (Python `None == int` is `False`, so a
missing selection grades as incorrect); other question types are left
untouched. -/
def StudentAnswer.auto_grade (q : Question) (a : StudentAnswer) : StudentAnswer :=
  if q.question_type = "mcq" ∨ q.question_type = "truefalse" then
    if a.selected_option = some q.correct_option then
      { a with is_correct := true, points_earned := (q.points : ℤ) }
    else
      { a with is_correct := false, points_earned := 0 }
  else a

/-- `GroupAnswer` rows: the group's single answer per question, either a
selected option or free text. -/
structure GroupAnswer where
  selected_option : Option ℤ
  text_answer : Option String := none
  is_correct : Bool := false
  points_earned : ℤ := 0
deriving Repr, DecidableEq

/-- `GroupAnswer.auto_grade`: identical option comparison for
`mcq`/`truefalse`; text-based questions are zeroed pending AI grading. -/
def GroupAnswer.auto_grade (q : Question) (a : GroupAnswer) : GroupAnswer :=
  if q.question_type = "mcq" ∨ q.question_type = "truefalse" then
    if a.selected_option = some q.correct_option then
      { a with is_correct := true, points_earned := (q.points : ℤ) }
    else
      { a with is_correct := false, points_earned := 0 }
  else
    { a with is_correct := false, points_earned := 0 }

/-- The shared pure choice-grading function both `auto_grade` methods
compute on `mcq`/`truefalse` questions (the spec's `grade_choice`). -/
def grade_choice (q : Question) (submitted : Option ℤ) : Bool × ℤ :=
  if submitted = some q.correct_option then (true, (q.points : ℤ)) else (false, 0)

/-! ## AI grading pipeline (`quizapp/llm_service.py`) -/

/-- `IndividualOpinion` rows: the fields the grading pipeline reads and
writes. `student_name` stands for `opinion.student.get_full_name()`;
`score_percentage` defaults to 0 and `ai_feedback` to the empty string. -/
structure IndividualOpinion where
  student_name : String
  opinion_text : String
  score_percentage : ℚ := 0
  ai_feedback : String := ""
deriving Repr, DecidableEq

/-- One entry of the `individual_scores` array of the model's JSON reply,
after `json.loads` succeeds. Every field is optional because the code reads
each with `score_data.get(key, default)`. `score` is `none` also when the
value is present but not coercible by `float(...)` is treated by the code as
a raised exception, so a `some` here stands for a successfully coerced
number. -/
structure ScoreData where
  student_name : Option String
  score : Option ℚ
  feedback : Option String
deriving Repr, DecidableEq

/-- The model's JSON reply after `json.loads` succeeds, as read by
`grade_question_with_context` via `data.get(...)`. -/
structure GradingData where
  group_score : Option ℚ
  group_feedback : Option String
  individual_scores : Option (List ScoreData)
deriving Repr, DecidableEq

/-- Outcome of the model call plus JSON decoding for one question:
`failure` covers a raised `generate_content` error, an unparseable reply
(after stripping the ``` and ```json code fences) and any `float(...)`
coercion error; `success` carries the decoded JSON object. -/
inductive ModelResult where
  | failure
  | success (data : GradingData)
deriving Repr, DecidableEq

/-- The fallback branch of `grade_question_with_context`: group answer
marked incorrect with `int(question.points * 0.5)` points, every opinion
scored a flat 50.0 with the fallback feedback string. -/
def fallbackGrade (q : Question) (ga : GroupAnswer) (ops : List IndividualOpinion) :
    GroupAnswer × List IndividualOpinion :=
  ({ ga with is_correct := false, points_earned := pyInt ((q.points : ℚ) * (1/2)) },
   ops.map fun o =>
     { o with score_percentage := 50,
              ai_feedback := "Graded by fallback (AI unavailable)" })

/-- The inner loop of the success branch: find the first opinion whose
student's full name equals `name` and overwrite its score and feedback;
when none matches the entry is dropped (only logged). -/
def updateFirstMatch (name : String) (score : ℚ) (fb : String) :
    List IndividualOpinion → List IndividualOpinion
  | [] => []
  | o :: rest =>
    if o.student_name = name then
      { o with score_percentage := score, ai_feedback := fb } :: rest
    else
      o :: updateFirstMatch name score fb rest

/-- The `for score_data in individual_scores_data` loop: each entry's score
is coerced, clamped to [0, 100], and written to the first opinion with the
exact same student name. -/
def applyIndividualScores (ops : List IndividualOpinion) (ds : List ScoreData) :
    List IndividualOpinion :=
  ds.foldl
    (fun acc d =>
      updateFirstMatch (d.student_name.getD "") (clamp0100 (d.score.getD 0))
        (d.feedback.getD "") acc)
    ops

/-- The success branch of `grade_question_with_context`: the group score is
defaulted to 0 when absent, clamped to [0, 100]; `is_correct` uses the 70
threshold; `points_earned = int((group_score / 100) * question.points)`;
then every individual score entry is applied. -/
def successGrade (q : Question) (ga : GroupAnswer) (ops : List IndividualOpinion)
    (data : GradingData) : GroupAnswer × List IndividualOpinion :=
  let group_score := clamp0100 (data.group_score.getD 0)
  ({ ga with is_correct := decide (70 ≤ group_score),
             points_earned := pyInt (group_score / 100 * (q.points : ℚ)) },
   applyIndividualScores ops (data.individual_scores.getD []))

/-- `grade_question_with_context`: the whole body is wrapped in
`try/except`, so any failure lands in the fallback branch and nothing
propagates. -/
def grade_question_with_context (q : Question) (ga : GroupAnswer)
    (ops : List IndividualOpinion) (res : ModelResult) :
    GroupAnswer × List IndividualOpinion :=
  match res with
  | .failure => fallbackGrade q ga ops
  | .success data => successGrade q ga ops data

/-- One question of a group attempt as the orchestrator sees it: the
question row, the `GroupAnswer` row when one exists, the question's
opinions, and the outcome of the model call for it. -/
structure QuestionCtx where
  q : Question
  ganswer : Option GroupAnswer
  opinions : List IndividualOpinion
  result : ModelResult
deriving Repr, DecidableEq

/-- The per-question step of `grade_group_test`: a missing group answer or
an empty opinion set skips the question (logged, `continue`); otherwise the
question is graded with full context. -/
def gradeOne (c : QuestionCtx) : QuestionCtx :=
  match c.ganswer with
  | none => c
  | some ga =>
    if c.opinions = [] then c
    else
      let r := grade_question_with_context c.q ga c.opinions c.result
      { c with ganswer := some r.1, opinions := r.2 }

/-- The question loop of `grade_group_test`: every question is processed
independently; no per-question failure aborts the loop. -/
def gradeAllQuestions (cs : List QuestionCtx) : List QuestionCtx :=
  cs.map gradeOne

/-! ## Score aggregation (`calculate_final_scores`) -/

/-- `GroupMember` rows: the member's name and aggregate score. -/
structure GroupMember where
  student_name : String
  individual_score_percentage : ℚ := 0
deriving Repr, DecidableEq

/-- The contribution of one `GroupAnswer` to the group average: `100.0` when
`is_correct`, else `points_earned / question.points * 100`. -/
def perQuestionPct (q : Question) (ga : GroupAnswer) : ℚ :=
  if ga.is_correct then 100 else (ga.points_earned : ℚ) / (q.points : ℚ) * 100

/-- The group-score half of `calculate_final_scores`: the mean of
`perQuestionPct` over every existing `GroupAnswer` of the attempt, `0.0`
when there are none. -/
def groupScore (cs : List QuestionCtx) : ℚ :=
  let answers := cs.filterMap fun c => c.ganswer.map fun ga => perQuestionPct c.q ga
  if answers.length > 0 then answers.sum / (answers.length : ℚ) else 0

/-- The opinions of one member across all questions of the attempt
(`IndividualOpinion.objects.filter(group_attempt=…, student=…)`). -/
def opinionsOf (cs : List QuestionCtx) (name : String) : List IndividualOpinion :=
  (cs.flatMap QuestionCtx.opinions).filter fun o => o.student_name = name

/-- The member-score half of `calculate_final_scores`: the mean of
`score_percentage` over all of the member's opinions, `0.0` with none. -/
def memberScore (cs : List QuestionCtx) (name : String) : ℚ :=
  let ops := opinionsOf cs name
  if ops.length > 0 then (ops.map IndividualOpinion.score_percentage).sum / (ops.length : ℚ)
  else 0

/-- The persistent state `calculate_final_scores` reads and writes: the
per-question rows, the attempt's stored `group_score_percentage`, and the
`GroupMember` rows. -/
structure AttemptState where
  contexts : List QuestionCtx
  group_score_percentage : ℚ := 0
  members : List GroupMember
deriving Repr, DecidableEq

/-- `calculate_final_scores`: stores the group mean on the attempt and each
member's mean on their `GroupMember` row; it never mutates the
`GroupAnswer` or `IndividualOpinion` rows it reads. -/
def calculate_final_scores (s : AttemptState) : AttemptState :=
  { s with
    group_score_percentage := groupScore s.contexts,
    members := s.members.map fun m =>
      { m with individual_score_percentage := memberScore s.contexts m.student_name } }

/-- `grade_group_test`: grade every question in order, then aggregate. -/
def grade_group_test (s : AttemptState) : AttemptState :=
  calculate_final_scores { s with contexts := gradeAllQuestions s.contexts }

/-! ## Leaderboard (`AssignmentViewSet.leaderboard`, `quizapp/views.py`) -/

/-- A completed `StudentAttempt` row as the leaderboard reads it.
Timestamps are abstract ticks. The queryset
`StudentAttempt.objects.filter(assignment=…, is_completed=True)` iterates
under the model's default ordering `['-started_at']`, i.e. most recently
started first; the functions below take the list in that iteration order. -/
structure LeaderAttempt where
  student_id : ℕ
  auto_score : ℤ
  started_at : ℕ
  finished_at : ℕ
deriving Repr, DecidableEq

/-- One step of the best-attempt dict construction:
`if student_id not in student_best or attempt.auto_score >
student_best[student_id].auto_score: student_best[student_id] = attempt`.
Python dicts preserve first-insertion order on value replacement. -/
def updateBest (acc : List LeaderAttempt) (a : LeaderAttempt) : List LeaderAttempt :=
  if ∃ b ∈ acc, b.student_id = a.student_id then
    acc.map fun b =>
      if b.student_id = a.student_id ∧ b.auto_score < a.auto_score then a else b
  else acc ++ [a]

/-- `student_best` after the loop, as `list(student_best.values())`. -/
def bestPerStudent (attempts : List LeaderAttempt) : List LeaderAttempt :=
  attempts.foldl updateBest []

/-- Insert into a descending-by-score list, after every element with a
score ≥ the new one (the unique stable position). -/
def insertByScore (a : LeaderAttempt) : List LeaderAttempt → List LeaderAttempt
  | [] => [a]
  | b :: rest =>
    if b.auto_score < a.auto_score then a :: b :: rest else b :: insertByScore a rest

/-- `best_attempts.sort(key=lambda x: x.auto_score, reverse=True)`: Python's
sort is stable, so it equals this stable insertion sort on the score key. -/
def sortByScoreDesc (l : List LeaderAttempt) : List LeaderAttempt :=
  l.foldl (fun acc a => insertByScore a acc) []

/-- `enumerate(best_attempts, 1)`: pair each element with its 1-based rank. -/
def ranksFrom (n : ℕ) : List LeaderAttempt → List (ℕ × LeaderAttempt)
  | [] => []
  | a :: rest => (n, a) :: ranksFrom (n + 1) rest

/-- The ranked leaderboard: 1-based ranks in sorted order. -/
def leaderboard (attempts : List LeaderAttempt) : List (ℕ × LeaderAttempt) :=
  ranksFrom 1 (sortByScoreDesc (bestPerStudent attempts))

/-! ## Spec-side aggregation formulas (for the refinement claim about
`calculate_final_scores`; written from the spec's §4.5 wording, to be
compared with the definitions above taken from the source). -/

/-- Spec §4.5: per-question percentage = 100.0 if `is_correct` else
`points_earned / question.points * 100`. -/
def spec_per_question_pct (q : Question) (ga : GroupAnswer) : ℚ :=
  if ga.is_correct then 100 else (ga.points_earned : ℚ) / (q.points : ℚ) * 100

/-- The (question, answer) pairs of every `GroupAnswer` belonging to the
attempt. -/
def answersOf (cs : List QuestionCtx) : List (Question × GroupAnswer) :=
  cs.filterMap fun c => c.ganswer.map fun ga => (c.q, ga)

/-- Spec §4.5: group score = arithmetic mean of the per-question
percentages over all GroupAnswers; 0.0 with zero GroupAnswers. -/
def spec_group_score : List (Question × GroupAnswer) → ℚ
  | [] => 0
  | l => (l.map fun p => spec_per_question_pct p.1 p.2).sum / (l.length : ℚ)

/-- Spec §4.5: per-member score = arithmetic mean of `score_percentage`
over the member's opinions; 0.0 with zero opinions. -/
def spec_member_score : List IndividualOpinion → ℚ
  | [] => 0
  | l => (l.map IndividualOpinion.score_percentage).sum / (l.length : ℚ)

/-! ## Concrete fixtures used by the scenario theorems and witnesses -/

/-- A free-text question worth 10 points. -/
def qX (txt : String) : Question :=
  { question_text := txt, question_type := "text", options := ["expected answer"],
    correct_option := 0, points := 10 }

/-- A group answer as created before grading. -/
def gaX : GroupAnswer := { selected_option := none, text_answer := some "our answer" }

/-- An ungraded opinion by the named student. -/
def opX (n : String) : IndividualOpinion := { student_name := n, opinion_text := "thoughts" }

/-- Scenario B of the spec: two 10-point questions whose model calls
succeed with group scores 80 and 60. -/
def scenarioB : AttemptState :=
  { contexts :=
      [⟨qX "Q1", some gaX, [opX "Amy Lee"], .success ⟨some 80, some "fb", some []⟩⟩,
       ⟨qX "Q2", some gaX, [opX "Amy Lee"], .success ⟨some 60, some "fb", some []⟩⟩],
    members := [{ student_name := "Amy Lee" }] }

/-- Scenario C of the spec: Amy Lee's opinions scored 90 and 70 across two
questions. -/
def scenarioC : List QuestionCtx :=
  [⟨qX "Q1", some gaX, [{ student_name := "Amy Lee", opinion_text := "a", score_percentage := 90 }], .failure⟩,
   ⟨qX "Q2", some gaX, [{ student_name := "Amy Lee", opinion_text := "b", score_percentage := 70 }], .failure⟩]

/-- Two completed attempts by the same student with equal scores: the
later-started one first, matching the queryset's `-started_at` order. -/
def lateAttempt : LeaderAttempt :=
  { student_id := 1, auto_score := 5, started_at := 10, finished_at := 10 }

/-- The earlier attempt: same student, same score, earliest completion. -/
def earlyAttempt : LeaderAttempt :=
  { student_id := 1, auto_score := 5, started_at := 1, finished_at := 1 }

/-- The leaderboard queryset for the tie scenario, in iteration order. -/
def queryList : List LeaderAttempt := [lateAttempt, earlyAttempt]

/-- Scenario A's question: 4 options, `correct_option = 2`, 1 point. -/
def qMcq : Question :=
  { question_text := "pick one", question_type := "mcq",
    options := ["w", "x", "y", "z"], correct_option := 2, points := 1 }

/-- A student answer selecting option 2. -/
def aMcq : StudentAnswer := { selected_option := some 2 }

/-- A group answer selecting option 1. -/
def gMcq : GroupAnswer := { selected_option := some 1 }

/-- A student answer with no option selected. -/
def aNone : StudentAnswer := { selected_option := none }

/-- A one-question context whose model call fails. -/
def failCtx : QuestionCtx := ⟨qX "Q1", some gaX, [opX "Amy Lee"], .failure⟩

end QuizAI

namespace QuizAI

/-! ## Theorems -/

/-- C1: the claim that Scenario B (two 10-point questions whose model
calls succeed with group scores 80 and 60) yields
`group_score_percentage = 70.0` is false on the code: the question scored
80 is marked `is_correct` (80 ≥ 70) and therefore contributes 100.0, not
80.0, to the average computed by `calculate_final_scores`. -/
theorem C1_counterexample :
    (grade_group_test scenarioB).group_score_percentage ≠ 70 := by
  norm_num [grade_group_test, scenarioB, calculate_final_scores, groupScore,
    gradeAllQuestions, gradeOne, grade_question_with_context, successGrade,
    applyIndividualScores, clamp0100, pyInt, perQuestionPct, qX, gaX, opX,
    List.filterMap_cons]

/-- C1 (amended): Scenario B yields `group_score_percentage = 80.0`: the
question scored 80 has `is_correct = true` and contributes 100.0 to the
mean, while the question scored 60 contributes
`points_earned / points * 100 = 60.0`. -/
theorem C1_scenarioB_score :
    (grade_group_test scenarioB).group_score_percentage = 80 := by
  norm_num [grade_group_test, scenarioB, calculate_final_scores, groupScore,
    gradeAllQuestions, gradeOne, grade_question_with_context, successGrade,
    applyIndividualScores, clamp0100, pyInt, perQuestionPct, qX, gaX, opX,
    List.filterMap_cons]

/-- C3: the claim that the success path stores
`points_earned = round(group_score / 100 * question.points)` is false: the
code truncates with `int(...)`. For a reported group score of 19 on a
10-point question the code stores 1 while rounding would store 2. -/
theorem C3_counterexample :
    (grade_question_with_context (qX "Q") gaX [opX "A"]
        (.success ⟨some 19, none, none⟩)).1.points_earned
      ≠ pyRound (clamp0100 19 / 100 * ((qX "Q").points : ℚ)) := by
  norm_num [grade_question_with_context, successGrade, applyIndividualScores,
    clamp0100, pyInt, pyRound, qX, gaX, opX]

/-- Updating the first matching opinion never changes the student names. -/
theorem updateFirstMatch_names (n : String) (s : ℚ) (fb : String) :
    ∀ ops : List IndividualOpinion,
      (updateFirstMatch n s fb ops).map IndividualOpinion.student_name
        = ops.map IndividualOpinion.student_name
  | [] => rfl
  | o :: rest => by
    unfold updateFirstMatch
    split
    · simp
    · simp [updateFirstMatch_names n s fb rest]

/-- A score entry whose name matches no opinion leaves the list unchanged. -/
theorem updateFirstMatch_no_match {n : String} {s : ℚ} {fb : String} :
    ∀ {ops : List IndividualOpinion}, (∀ o ∈ ops, o.student_name ≠ n) →
      updateFirstMatch n s fb ops = ops
  | [], _ => rfl
  | o :: rest, h => by
    unfold updateFirstMatch
    rw [if_neg (h o (by simp)), updateFirstMatch_no_match fun o ho => h o (by simp [ho])]

/-- Dropping every score entry whose student name matches no opinion does
not change the result of the individual-score loop. -/
theorem applyScores_drop_unmatched (ops₀ : List IndividualOpinion) :
    ∀ (ds : List ScoreData) (ops : List IndividualOpinion),
      ops.map IndividualOpinion.student_name = ops₀.map IndividualOpinion.student_name →
      applyIndividualScores ops
          (ds.filter fun d => ops₀.any fun o => o.student_name = d.student_name.getD "")
        = applyIndividualScores ops ds
  | [], _, _ => rfl
  | d :: ds, ops, h => by
    rw [List.filter_cons]
    by_cases hd : (ops₀.any fun o => o.student_name = d.student_name.getD "") = true
    · rw [if_pos (by simpa using hd)]
      show applyIndividualScores _ (d :: _) = _
      unfold applyIndividualScores
      rw [List.foldl_cons, List.foldl_cons]
      exact applyScores_drop_unmatched ops₀ ds _
        ((updateFirstMatch_names _ _ _ ops).trans h)
    · rw [if_neg (by simpa using hd)]
      have hno : ∀ o ∈ ops, o.student_name ≠ d.student_name.getD "" := by
        intro o ho hname
        have : o.student_name ∈ ops₀.map IndividualOpinion.student_name := by
          rw [← h]
          exact List.mem_map_of_mem _ ho
        rw [List.mem_map] at this
        obtain ⟨o₀, ho₀, hn₀⟩ := this
        rw [Bool.not_eq_true, List.any_eq_false] at hd
        exact hd o₀ ho₀ (by simp [hn₀, hname])
      have hstep : applyIndividualScores ops (d :: ds) = applyIndividualScores ops ds := by
        unfold applyIndividualScores
        rw [List.foldl_cons, updateFirstMatch_no_match hno]
      rw [hstep]
      exact applyScores_drop_unmatched ops₀ ds ops h

/-- C3 (amended): on a successful model call the `GroupAnswer` gets
`is_correct = (group_score ≥ 70)` and
`points_earned = floor(group_score / 100 * question.points)` — `int(...)`
truncation, not `round(...)` — and score entries whose student name matches
no opinion are dropped without effect: filtering them out of the response
gives the same persisted opinions. -/
theorem C3_success_grading (q : Question) (ga : GroupAnswer)
    (ops : List IndividualOpinion) (data : GradingData) :
    (grade_question_with_context q ga ops (.success data)).1.is_correct
        = decide (70 ≤ clamp0100 (data.group_score.getD 0)) ∧
    (grade_question_with_context q ga ops (.success data)).1.points_earned
        = ⌊clamp0100 (data.group_score.getD 0) / 100 * (q.points : ℚ)⌋ ∧
    (grade_question_with_context q ga ops (.success data)).2
        = applyIndividualScores ops ((data.individual_scores.getD []).filter
            fun d => ops.any fun o => o.student_name = d.student_name.getD "") := by
  refine ⟨rfl, ?_, ?_⟩
  · show pyInt _ = _
    rw [pyInt, if_pos
      (mul_nonneg (div_nonneg (le_max_left 0 _) (by norm_num)) (Nat.cast_nonneg _))]
  · exact (applyScores_drop_unmatched ops (data.individual_scores.getD []) ops rfl).symm

/-- C5: `grade_choice` awards full points exactly on the correct option and
zero otherwise, with no partial credit, and both `StudentAnswer.auto_grade`
and `GroupAnswer.auto_grade` compute exactly `grade_choice` on
`mcq`/`truefalse` questions. -/
theorem C5_choice_grading (q : Question) (a : StudentAnswer) (g : GroupAnswer)
    (hq : q.question_type = "mcq" ∨ q.question_type = "truefalse") :
    grade_choice q (some q.correct_option) = (true, (q.points : ℤ)) ∧
    (∀ o : Option ℤ, o ≠ some q.correct_option → grade_choice q o = (false, 0)) ∧
    ((StudentAnswer.auto_grade q a).is_correct, (StudentAnswer.auto_grade q a).points_earned)
        = grade_choice q a.selected_option ∧
    ((GroupAnswer.auto_grade q g).is_correct, (GroupAnswer.auto_grade q g).points_earned)
        = grade_choice q g.selected_option := by
  refine ⟨by simp [grade_choice], fun o ho => by simp [grade_choice, ho], ?_, ?_⟩
  · unfold StudentAnswer.auto_grade grade_choice
    rw [if_pos hq]
    split <;> simp
  · unfold GroupAnswer.auto_grade grade_choice
    rw [if_pos hq]
    split <;> simp

/-- C5 witness: the theorem instantiated at Scenario A's question. -/
theorem C5_witness :
    (qMcq.question_type = "mcq" ∨ qMcq.question_type = "truefalse") ∧
    (grade_choice qMcq (some qMcq.correct_option) = (true, (qMcq.points : ℤ)) ∧
     (∀ o : Option ℤ, o ≠ some qMcq.correct_option → grade_choice qMcq o = (false, 0)) ∧
     ((StudentAnswer.auto_grade qMcq aMcq).is_correct,
       (StudentAnswer.auto_grade qMcq aMcq).points_earned)
         = grade_choice qMcq aMcq.selected_option ∧
     ((GroupAnswer.auto_grade qMcq gMcq).is_correct,
       (GroupAnswer.auto_grade qMcq gMcq).points_earned)
         = grade_choice qMcq gMcq.selected_option) :=
  ⟨Or.inl rfl, C5_choice_grading qMcq aMcq gMcq (Or.inl rfl)⟩

/-- The group half of `calculate_final_scores` computes the spec's §4.5
formula over the attempt's (question, answer) pairs. -/
theorem groupScore_eq_spec (cs : List QuestionCtx) :
    groupScore cs = spec_group_score (answersOf cs) := by
  have hlist : (answersOf cs).map (fun p => spec_per_question_pct p.1 p.2)
      = cs.filterMap fun c => c.ganswer.map fun ga => perQuestionPct c.q ga := by
    rw [answersOf, List.map_filterMap]
    congr 1
    funext c
    cases c.ganswer <;> rfl
  unfold groupScore spec_group_score
  cases hA : answersOf cs with
  | nil =>
    rw [← hlist, hA]
    simp
  | cons a l =>
    rw [← hlist, hA]
    simp

/-- The member half of `calculate_final_scores` computes the spec's §4.5
formula over the member's opinions. -/
theorem memberScore_eq_spec (cs : List QuestionCtx) (name : String) :
    memberScore cs name = spec_member_score (opinionsOf cs name) := by
  unfold memberScore spec_member_score
  cases h : opinionsOf cs name with
  | nil => simp [h]
  | cons o l => simp [h]

/-- C4: the aggregator stores the spec's group mean (100.0 per correct
answer, else the points proportion; 0.0 with no `GroupAnswer` rows) and,
for every member, the mean of their opinion scores across all questions
(0.0 with none); Scenario C: opinions scored 90 and 70 average to 80.0. -/
theorem C4_aggregation (s : AttemptState) :
    (calculate_final_scores s).group_score_percentage
        = spec_group_score (answersOf s.contexts) ∧
    (calculate_final_scores s).members = s.members.map (fun m =>
      { m with individual_score_percentage :=
          spec_member_score (opinionsOf s.contexts m.student_name) }) ∧
    memberScore scenarioC "Amy Lee" = 80 := by
  refine ⟨groupScore_eq_spec s.contexts, ?_, ?_⟩
  · unfold calculate_final_scores
    simp only [memberScore_eq_spec]
  · norm_num [memberScore, opinionsOf, scenarioC, List.flatMap_cons, List.flatMap_nil,
      List.filter]

theorem clamp0100_bounds (x : ℚ) : 0 ≤ clamp0100 x ∧ clamp0100 x ≤ 100 :=
  ⟨le_max_left 0 _, max_le (by norm_num) (min_le_left 100 x)⟩

theorem updateFirstMatch_bounds {P : ℚ → Prop} {n : String} {s : ℚ} {fb : String}
    (hs : P s) :
    ∀ {ops : List IndividualOpinion}, (∀ o ∈ ops, P o.score_percentage) →
      ∀ o ∈ updateFirstMatch n s fb ops, P o.score_percentage
  | [], _, o, ho => absurd ho (by simp [updateFirstMatch])
  | o₀ :: rest, h, o, ho => by
    unfold updateFirstMatch at ho
    split at ho
    · rcases List.mem_cons.mp ho with rfl | ho'
      · exact hs
      · exact h o (List.mem_cons_of_mem _ ho')
    · rcases List.mem_cons.mp ho with rfl | ho'
      · exact h o (List.mem_cons_self _ _)
      · exact updateFirstMatch_bounds hs (fun x hx => h x (List.mem_cons_of_mem _ hx)) o ho'

theorem applyScores_bounds {P : ℚ → Prop} (hP : ∀ x, P (clamp0100 x)) :
    ∀ (ds : List ScoreData) (ops : List IndividualOpinion),
      (∀ o ∈ ops, P o.score_percentage) →
      ∀ o ∈ applyIndividualScores ops ds, P o.score_percentage
  | [], _, h => h
  | d :: ds, ops, h => by
    unfold applyIndividualScores
    rw [List.foldl_cons]
    exact applyScores_bounds hP ds _ (updateFirstMatch_bounds (hP _) h)

theorem memberScore_bounds (cs : List QuestionCtx) (name : String)
    (h : ∀ c ∈ cs, ∀ o ∈ c.opinions, 0 ≤ o.score_percentage ∧ o.score_percentage ≤ 100) :
    0 ≤ memberScore cs name ∧ memberScore cs name ≤ 100 := by
  have hops : ∀ o ∈ opinionsOf cs name,
      0 ≤ o.score_percentage ∧ o.score_percentage ≤ 100 := by
    intro o ho
    rw [opinionsOf, List.mem_filter] at ho
    obtain ⟨hmem, _⟩ := ho
    rw [List.mem_flatMap] at hmem
    obtain ⟨c, hc, hoc⟩ := hmem
    exact h c hc o hoc
  unfold memberScore
  by_cases hlen : (opinionsOf cs name).length > 0
  · rw [if_pos hlen]
    constructor
    · apply div_nonneg ?_ (by positivity)
      apply List.sum_nonneg
      intro x hx
      rw [List.mem_map] at hx
      obtain ⟨o, ho, rfl⟩ := hx
      exact (hops o ho).1
    · rw [div_le_iff₀ (by exact_mod_cast hlen)]
      calc ((opinionsOf cs name).map IndividualOpinion.score_percentage).sum
          ≤ ((opinionsOf cs name).map IndividualOpinion.score_percentage).length • (100:ℚ) := by
            apply List.sum_le_card_nsmul
            intro x hx
            rw [List.mem_map] at hx
            obtain ⟨o, ho, rfl⟩ := hx
            exact (hops o ho).2
        _ = 100 * (opinionsOf cs name).length := by
            rw [List.length_map, nsmul_eq_mul]
            ring
  · rw [if_neg hlen]
    norm_num

theorem C6_clamping (q : Question) (ga : GroupAnswer) (ops : List IndividualOpinion)
    (res : ModelResult) (cs : List QuestionCtx) (name : String)
    (hops : ∀ o ∈ ops, 0 ≤ o.score_percentage ∧ o.score_percentage ≤ 100)
    (hcs : ∀ c ∈ cs, ∀ o ∈ c.opinions, 0 ≤ o.score_percentage ∧ o.score_percentage ≤ 100) :
    (∀ x : ℚ, 0 ≤ clamp0100 x ∧ clamp0100 x ≤ 100) ∧
    (∀ x : ℚ, 100 < x → clamp0100 x = 100) ∧
    clamp0100 150 = 100 ∧
    (∀ o ∈ (grade_question_with_context q ga ops res).2,
        0 ≤ o.score_percentage ∧ o.score_percentage ≤ 100) ∧
    (0 ≤ memberScore cs name ∧ memberScore cs name ≤ 100) := by
  refine ⟨clamp0100_bounds, ?_, by norm_num [clamp0100], ?_, memberScore_bounds cs name hcs⟩
  · intro x hx
    rw [clamp0100, min_eq_left hx.le, max_eq_right (by norm_num)]
  · cases res with
    | failure =>
      intro o ho
      rw [grade_question_with_context, fallbackGrade] at ho
      simp only [List.mem_map] at ho
      obtain ⟨o₀, _, rfl⟩ := ho
      norm_num
    | success data =>
      exact @applyScores_bounds (fun x => 0 ≤ x ∧ x ≤ 100) clamp0100_bounds
        (data.individual_scores.getD []) ops hops

theorem C6_witness :
    ((∀ o ∈ [opX "A"], 0 ≤ o.score_percentage ∧ o.score_percentage ≤ 100) ∧
     (∀ c ∈ scenarioC, ∀ o ∈ c.opinions,
        0 ≤ o.score_percentage ∧ o.score_percentage ≤ 100)) ∧
    ((∀ x : ℚ, 0 ≤ clamp0100 x ∧ clamp0100 x ≤ 100) ∧
     (∀ x : ℚ, 100 < x → clamp0100 x = 100) ∧
     clamp0100 150 = 100 ∧
     (∀ o ∈ (grade_question_with_context (qX "Q") gaX [opX "A"]
         (.success ⟨some 150, none, none⟩)).2,
         0 ≤ o.score_percentage ∧ o.score_percentage ≤ 100) ∧
     (0 ≤ memberScore scenarioC "Amy Lee" ∧ memberScore scenarioC "Amy Lee" ≤ 100)) :=
  ⟨⟨by norm_num [opX], by norm_num [scenarioC, opX]⟩,
   C6_clamping (qX "Q") gaX [opX "A"] (.success ⟨some 150, none, none⟩) scenarioC
     "Amy Lee" (by norm_num [opX]) (by norm_num [scenarioC, opX])⟩

/-- C10: an `mcq`/`truefalse` answer with no selected option is graded, and
graded as wrong: `None == correct_option` is false in Python, so
`auto_grade` marks it incorrect with zero points. -/
theorem C10_unanswered (q : Question) (a : StudentAnswer)
    (hq : q.question_type = "mcq" ∨ q.question_type = "truefalse")
    (hsel : a.selected_option = none) :
    (StudentAnswer.auto_grade q a).is_correct = false ∧
    (StudentAnswer.auto_grade q a).points_earned = 0 := by
  unfold StudentAnswer.auto_grade
  rw [if_pos hq, if_neg (by simp [hsel])]
  exact ⟨rfl, rfl⟩

/-- C10 witness: the theorem instantiated at a concrete unanswered MCQ. -/
theorem C10_witness :
    ((qMcq.question_type = "mcq" ∨ qMcq.question_type = "truefalse") ∧
      aNone.selected_option = none) ∧
    ((StudentAnswer.auto_grade qMcq aNone).is_correct = false ∧
      (StudentAnswer.auto_grade qMcq aNone).points_earned = 0) :=
  ⟨⟨Or.inl rfl, rfl⟩, C10_unanswered qMcq aNone (Or.inl rfl) rfl⟩

/-- C2: when the model call (or response handling) for a question fails,
that question's `GroupAnswer` is marked incorrect with
`points_earned = floor(question.points * 0.5)` and every opinion for it
gets a flat 50.0 with the fallback feedback string, regardless of how other
questions fare; processing is per-question (element `i` of the output
depends only on element `i` of the input, so no failure aborts later
questions); and when every call fails, every graded question ends in
exactly this fallback state. -/
theorem C2_fallback_policy (cs : List QuestionCtx) :
    (∀ i : ℕ, (gradeAllQuestions cs)[i]? = cs[i]?.map gradeOne) ∧
    (∀ c ∈ cs, c.result = ModelResult.failure → ∀ ga, c.ganswer = some ga →
      c.opinions ≠ [] →
      (gradeOne c).ganswer = some { ga with
          is_correct := false, points_earned := ⌊(c.q.points : ℚ) * (1 / 2)⌋ } ∧
      (gradeOne c).opinions = c.opinions.map fun o =>
        { o with score_percentage := 50,
                 ai_feedback := "Graded by fallback (AI unavailable)" }) ∧
    ((∀ c ∈ cs, c.result = ModelResult.failure) →
      ∀ c' ∈ gradeAllQuestions cs, ∀ ga', c'.ganswer = some ga' → c'.opinions ≠ [] →
        (ga'.is_correct = false ∧ ga'.points_earned = ⌊(c'.q.points : ℚ) * (1 / 2)⌋) ∧
        ∀ o ∈ c'.opinions, o.score_percentage = 50 ∧
          o.ai_feedback = "Graded by fallback (AI unavailable)") := by
  have hfloor : ∀ q : Question, pyInt ((q.points : ℚ) * (1 / 2)) = ⌊(q.points : ℚ) * (1 / 2)⌋ := by
    intro q
    rw [pyInt, if_pos (by positivity)]
  refine ⟨?_, ?_, ?_⟩
  · intro i
    simp [gradeAllQuestions]
  · intro c _ hres ga hga hop
    simp only [gradeOne, hga, if_neg hop, hres]
    simp only [grade_question_with_context, fallbackGrade]
    exact ⟨by rw [hfloor c.q], by trivial⟩
  · intro hfail c' hc' ga' hga' hops
    rw [gradeAllQuestions, List.mem_map] at hc'
    obtain ⟨c, hc, rfl⟩ := hc'
    have hres := hfail c hc
    cases hcg : c.ganswer with
    | none =>
      simp [gradeOne, hcg] at hga'
    | some ga =>
      by_cases hop : c.opinions = []
      · simp only [gradeOne, hcg, if_pos hop] at hops
        exact absurd hop hops
      · simp only [gradeOne, hcg, if_neg hop, hres] at hga' hops ⊢
        simp only [grade_question_with_context, fallbackGrade] at hga' hops ⊢
        simp only [Option.some.injEq] at hga'
        subst hga'
        refine ⟨⟨rfl, hfloor c.q⟩, ?_⟩
        intro o ho
        simp only [List.mem_map] at ho
        obtain ⟨o₀, _, rfl⟩ := ho
        exact ⟨rfl, rfl⟩

/-- C2 witness: the per-question fallback conclusion at a concrete
one-question attempt whose model call fails. -/
theorem C2_witness :
    (failCtx.result = ModelResult.failure ∧ failCtx.ganswer = some gaX ∧
      failCtx.opinions ≠ []) ∧
    ((gradeOne failCtx).ganswer = some { gaX with
        is_correct := false, points_earned := ⌊(failCtx.q.points : ℚ) * (1 / 2)⌋ } ∧
     (gradeOne failCtx).opinions = failCtx.opinions.map fun o =>
        { o with score_percentage := 50,
                 ai_feedback := "Graded by fallback (AI unavailable)" }) :=
  ⟨⟨rfl, rfl, by simp [failCtx]⟩,
   (C2_fallback_policy [failCtx]).2.1 failCtx (by simp) rfl gaX rfl (by simp [failCtx])⟩

/-- The group mean only depends on the multiset of graded answers. -/
theorem groupScore_perm {cs cs' : List QuestionCtx} (h : List.Perm cs cs') :
    groupScore cs = groupScore cs' := by
  have hp := h.filterMap fun c => c.ganswer.map fun ga => perQuestionPct c.q ga
  unfold groupScore
  dsimp only
  rw [hp.sum_eq, hp.length_eq]

/-- A member's mean only depends on the multiset of their opinions. -/
theorem memberScore_perm {cs cs' : List QuestionCtx} (h : List.Perm cs cs')
    (name : String) : memberScore cs name = memberScore cs' name := by
  have hp : List.Perm (opinionsOf cs name) (opinionsOf cs' name) :=
    (h.flatMap_right QuestionCtx.opinions).filter _
  unfold memberScore
  dsimp only
  rw [(hp.map IndividualOpinion.score_percentage).sum_eq, hp.length_eq]

/-- `calculate_final_scores` reads only the per-question rows, which it
never writes, so it is idempotent. -/
theorem calculate_final_scores_idem (s : AttemptState) :
    calculate_final_scores (calculate_final_scores s) = calculate_final_scores s := by
  simp [calculate_final_scores, List.map_map, Function.comp]

/-- C7: aggregation is idempotent (re-running `calculate_final_scores`
changes nothing, since it never mutates the rows it reads) and
order-independent: grading the questions in any permuted order, or
iterating over them in any order during aggregation, yields the same
`group_score_percentage` and the same member scores. -/
theorem C7_aggregation_stability (s : AttemptState) (cs' : List QuestionCtx)
    (h : List.Perm cs' s.contexts) :
    calculate_final_scores (calculate_final_scores s) = calculate_final_scores s ∧
    groupScore (gradeAllQuestions cs') = groupScore (gradeAllQuestions s.contexts) ∧
    ∀ name, memberScore (gradeAllQuestions cs') name
        = memberScore (gradeAllQuestions s.contexts) name :=
  ⟨calculate_final_scores_idem s, groupScore_perm (h.map gradeOne),
   fun name => memberScore_perm (h.map gradeOne) name⟩

/-- C7 witness: the theorem at Scenario B with its two questions graded in
reversed order. -/
theorem C7_witness :
    List.Perm scenarioB.contexts.reverse scenarioB.contexts ∧
    (calculate_final_scores (calculate_final_scores scenarioB) = calculate_final_scores scenarioB ∧
     groupScore (gradeAllQuestions scenarioB.contexts.reverse)
        = groupScore (gradeAllQuestions scenarioB.contexts) ∧
     ∀ name, memberScore (gradeAllQuestions scenarioB.contexts.reverse) name
        = memberScore (gradeAllQuestions scenarioB.contexts) name) :=
  ⟨List.reverse_perm _, C7_aggregation_stability scenarioB _ (List.reverse_perm _)⟩

/-- Membership in the stable insertion step. -/
theorem mem_insertByScore (x a : LeaderAttempt) :
    ∀ l : List LeaderAttempt, x ∈ insertByScore a l ↔ x = a ∨ x ∈ l
  | [] => by simp [insertByScore]
  | b :: rest => by
    unfold insertByScore
    split
    · simp only [List.mem_cons]
    · rw [List.mem_cons, mem_insertByScore x a rest, List.mem_cons]
      tauto

/-- Inserting preserves the descending-by-score ordering. -/
theorem pairwise_insertByScore (a : LeaderAttempt) :
    ∀ l : List LeaderAttempt,
      l.Pairwise (fun x y => y.auto_score ≤ x.auto_score) →
      (insertByScore a l).Pairwise (fun x y => y.auto_score ≤ x.auto_score)
  | [], _ => by simp [insertByScore]
  | b :: rest, h => by
    rw [List.pairwise_cons] at h
    obtain ⟨hb, hrest⟩ := h
    unfold insertByScore
    split
    · rename_i hlt
      rw [List.pairwise_cons]
      refine ⟨?_, List.pairwise_cons.mpr ⟨hb, hrest⟩⟩
      intro x hx
      rcases List.mem_cons.mp hx with rfl | hx'
      · exact le_of_lt hlt
      · exact le_trans (hb x hx') (le_of_lt hlt)
    · rename_i hge
      rw [not_lt] at hge
      rw [List.pairwise_cons]
      refine ⟨?_, pairwise_insertByScore a rest hrest⟩
      intro x hx
      rcases (mem_insertByScore x a rest).mp hx with rfl | hx'
      · exact hge
      · exact hb x hx'

/-- The sorted best-attempt list is descending by score. -/
theorem sortByScoreDesc_pairwise (l : List LeaderAttempt) :
    (sortByScoreDesc l).Pairwise (fun x y => y.auto_score ≤ x.auto_score) := by
  suffices h : ∀ (t acc : List LeaderAttempt),
      acc.Pairwise (fun x y => y.auto_score ≤ x.auto_score) →
      (t.foldl (fun acc a => insertByScore a acc) acc).Pairwise
        (fun x y => y.auto_score ≤ x.auto_score) by
    exact h l [] (by simp)
  intro t
  induction t with
  | nil => intro acc h; exact h
  | cons a t ih =>
    intro acc h
    exact ih _ (pairwise_insertByScore a acc h)

/-- Every ranked entry's attempt comes from the sorted list. -/
theorem ranksFrom_mem_snd (p : ℕ × LeaderAttempt) :
    ∀ (n : ℕ) (l : List LeaderAttempt), p ∈ ranksFrom n l → p.2 ∈ l
  | n, [], hp => absurd hp (by simp [ranksFrom])
  | n, a :: t, hp => by
    unfold ranksFrom at hp
    rcases List.mem_cons.mp hp with rfl | hp'
    · exact List.mem_cons_self _ _
    · exact List.mem_cons_of_mem _ (ranksFrom_mem_snd p (n + 1) t hp')

/-- Ranks assigned from `n` onward are at least `n`. -/
theorem ranksFrom_fst_ge (p : ℕ × LeaderAttempt) :
    ∀ (n : ℕ) (l : List LeaderAttempt), p ∈ ranksFrom n l → n ≤ p.1
  | n, [], hp => absurd hp (by simp [ranksFrom])
  | n, a :: t, hp => by
    unfold ranksFrom at hp
    rcases List.mem_cons.mp hp with rfl | hp'
    · exact le_refl n
    · exact le_trans (Nat.le_succ n) (ranksFrom_fst_ge p (n + 1) t hp')

/-- On a descending list, a strictly higher score gets a strictly
smaller rank. -/
theorem ranksFrom_mono :
    ∀ (n : ℕ) (l : List LeaderAttempt),
      l.Pairwise (fun x y => y.auto_score ≤ x.auto_score) →
      ∀ p ∈ ranksFrom n l, ∀ q ∈ ranksFrom n l,
        q.2.auto_score < p.2.auto_score → p.1 < q.1
  | n, [], _, p, hp => absurd hp (by simp [ranksFrom])
  | n, a :: t, h, p, hp => by
    intro q hq hlt
    rw [List.pairwise_cons] at h
    obtain ⟨ha, ht⟩ := h
    unfold ranksFrom at hp hq
    rcases List.mem_cons.mp hp with rfl | hp'
    · rcases List.mem_cons.mp hq with rfl | hq'
      · exact absurd hlt (lt_irrefl _)
      · exact lt_of_lt_of_le (Nat.lt_succ_self n) (ranksFrom_fst_ge q (n + 1) t hq')
    · rcases List.mem_cons.mp hq with rfl | hq'
      · exact absurd hlt (not_lt.mpr (ha p.2 (ranksFrom_mem_snd p (n + 1) t hp')))
      · exact ranksFrom_mono (n + 1) t ht p hp' q hq' hlt

/-- The dict-replacement step never changes an entry's student id. -/
theorem updateBest_id_map (a : LeaderAttempt) (b : LeaderAttempt) :
    (if b.student_id = a.student_id ∧ b.auto_score < a.auto_score then a else b).student_id
      = b.student_id := by
  split
  · rename_i hc
    exact hc.1.symm
  · rfl

/-- One step of the best-attempt loop preserves the loop invariant: every
kept attempt dominates all processed attempts of its student, and every
processed student is represented. -/
theorem updateBest_invariant (acc pref : List LeaderAttempt) (a : LeaderAttempt)
    (hI : ∀ b ∈ acc, ∀ x ∈ pref, x.student_id = b.student_id →
      x.auto_score ≤ b.auto_score)
    (hJ : ∀ x ∈ pref, ∃ b ∈ acc, b.student_id = x.student_id) :
    (∀ b ∈ updateBest acc a, ∀ x ∈ pref ++ [a], x.student_id = b.student_id →
      x.auto_score ≤ b.auto_score) ∧
    (∀ x ∈ pref ++ [a], ∃ b ∈ updateBest acc a, b.student_id = x.student_id) := by
  unfold updateBest
  by_cases hany : ∃ b ∈ acc, b.student_id = a.student_id
  · rw [if_pos hany]
    constructor
    · intro b' hb' x hx hid
      rw [List.mem_map] at hb'
      obtain ⟨b, hb, rfl⟩ := hb'
      rw [List.mem_append, List.mem_singleton] at hx
      by_cases hc : b.student_id = a.student_id ∧ b.auto_score < a.auto_score
      · rw [if_pos hc] at hid ⊢
        rcases hx with hx | rfl
        · exact le_trans (hI b hb x hx (by rw [hid, hc.1])) (le_of_lt hc.2)
        · exact le_refl _
      · rw [if_neg hc] at hid ⊢
        rcases hx with hx | rfl
        · exact hI b hb x hx hid
        · rw [not_and, not_lt] at hc
          exact hc hid.symm
    · intro x hx
      rw [List.mem_append, List.mem_singleton] at hx
      rcases hx with hx | rfl
      · obtain ⟨b, hb, hbid⟩ := hJ x hx
        refine ⟨_, List.mem_map_of_mem _ hb, ?_⟩
        rw [updateBest_id_map _ b, hbid]
      · obtain ⟨b, hb, hbid⟩ := hany
        refine ⟨_, List.mem_map_of_mem _ hb, ?_⟩
        rw [updateBest_id_map _ b, hbid]
  · rw [if_neg hany]
    constructor
    · intro b' hb' x hx hid
      rw [List.mem_append, List.mem_singleton] at hb' hx
      rcases hb' with hb' | rfl
      · rcases hx with hx | rfl
        · exact hI b' hb' x hx hid
        · exact absurd ⟨b', hb', hid.symm⟩ hany
      · rcases hx with hx | rfl
        · obtain ⟨b, hb, hbid⟩ := hJ x hx
          exact absurd ⟨b, hb, by rw [hbid, hid]⟩ hany
        · exact le_refl _
    · intro x hx
      rw [List.mem_append, List.mem_singleton] at hx
      rcases hx with hx | rfl
      · obtain ⟨b, hb, hbid⟩ := hJ x hx
        exact ⟨b, by rw [List.mem_append]; exact Or.inl hb, hbid⟩
      · exact ⟨x, by rw [List.mem_append, List.mem_singleton]; exact Or.inr rfl, rfl⟩

/-- The best-attempt loop invariant, folded over the whole queryset. -/
theorem bestPerStudent_max_aux :
    ∀ (l acc pref : List LeaderAttempt),
      (∀ b ∈ acc, ∀ x ∈ pref, x.student_id = b.student_id →
        x.auto_score ≤ b.auto_score) →
      (∀ x ∈ pref, ∃ b ∈ acc, b.student_id = x.student_id) →
      ∀ b ∈ l.foldl updateBest acc, ∀ x ∈ pref ++ l,
        x.student_id = b.student_id → x.auto_score ≤ b.auto_score
  | [], acc, pref, hI, hJ => by simpa using hI
  | a :: t, acc, pref, hI, hJ => by
    rw [List.foldl_cons]
    have h := updateBest_invariant acc pref a hI hJ
    have hrec := bestPerStudent_max_aux t (updateBest acc a) (pref ++ [a]) h.1 h.2
    intro b hb x hx
    apply hrec b hb x
    rw [List.append_assoc]
    simpa using hx

/-- Every selected attempt has the maximal score among its student's
attempts. -/
theorem bestPerStudent_max (l : List LeaderAttempt) :
    ∀ b ∈ bestPerStudent l, ∀ x ∈ l, x.student_id = b.student_id →
      x.auto_score ≤ b.auto_score := by
  have h := bestPerStudent_max_aux l [] [] (by simp) (by simp)
  simpa [bestPerStudent] using h

/-- C8 (amended): the leaderboard selects, per student, an attempt of
maximal `auto_score` — with ties broken in favor of the attempt seen first
in the queryset's descending-start-time iteration (the most recently
started one), not the earliest-completed — sorts the selection descending
by score alone (stable, no completion-time tie-break) and assigns 1-based
ranks, so a strictly higher score always gets a strictly smaller rank; on
the concrete tie the most recently started attempt is ranked. -/
theorem C8_leaderboard_ranking (l : List LeaderAttempt) :
    (∀ b ∈ bestPerStudent l, ∀ x ∈ l, x.student_id = b.student_id →
        x.auto_score ≤ b.auto_score) ∧
    (∀ p ∈ leaderboard l, ∀ q ∈ leaderboard l,
        q.2.auto_score < p.2.auto_score → p.1 < q.1) ∧
    leaderboard queryList = [(1, lateAttempt)] := by
  refine ⟨bestPerStudent_max l, ?_, by decide⟩
  intro p hp q hq hlt
  unfold leaderboard at hp hq
  exact ranksFrom_mono 1 _ (sortByScoreDesc_pairwise _) p hp q hq hlt

/-- C9 (amended): in the grading path only an unparseable reply (or a
failed numeric coercion) is a hard failure taking the fallback path; a
decodable reply is always graded, with missing fields replaced by defaults
(`group_score` → 0, `individual_scores` → empty) and out-of-range scores
clamped into [0, 100] rather than rejected. -/
theorem C9_grading_validation (q : Question) (ga : GroupAnswer)
    (ops : List IndividualOpinion) :
    grade_question_with_context q ga ops .failure = fallbackGrade q ga ops ∧
    (∀ data, grade_question_with_context q ga ops (.success data)
        = successGrade q ga ops data) ∧
    (∀ gf, successGrade q ga ops ⟨none, gf, none⟩
        = successGrade q ga ops ⟨some 0, gf, some []⟩) ∧
    (∀ x gf ds, (successGrade q ga ops ⟨some x, gf, ds⟩).1
        = (successGrade q ga ops ⟨some (clamp0100 x), gf, ds⟩).1) := by
  refine ⟨rfl, fun _ => rfl, fun _ => rfl, fun x gf ds => ?_⟩
  have h := clamp0100_bounds x
  have hc : clamp0100 (clamp0100 x) = clamp0100 x := by
    rw [clamp0100, min_eq_right h.2, max_eq_right h.1]
  simp only [successGrade, Option.getD_some]
  simp only [hc]

/-- C8: the claim that ties among a student's equal-score attempts are
broken by earliest completion is false: the queryset iterates in descending
`started_at` order and the dict keeps the first-seen attempt on a score
tie, so the most recently started attempt (completed at tick 10) is
selected rather than the earliest-completed one (tick 1). -/
theorem C8_counterexample :
    leaderboard queryList = [(1, lateAttempt)] ∧
    leaderboard queryList ≠ [(1, earlyAttempt)] := by decide

/-- C9: the claim that a response missing a required field (such as the
group score) or with an out-of-range numeric field is a hard validation
failure is false: `data.get('group_score', 0)` substitutes a default for a
missing score and out-of-range scores are clamped, so neither input takes
the fallback path (a reported 150 even marks the answer correct). -/
theorem C9_counterexample :
    grade_question_with_context (qX "Q") gaX [opX "A"] (.success ⟨none, none, none⟩)
        ≠ fallbackGrade (qX "Q") gaX [opX "A"] ∧
    grade_question_with_context (qX "Q") gaX [opX "A"] (.success ⟨some 150, none, none⟩)
        ≠ fallbackGrade (qX "Q") gaX [opX "A"] ∧
    (grade_question_with_context (qX "Q") gaX [opX "A"]
        (.success ⟨some 150, none, none⟩)).1.is_correct = true := by
  refine ⟨?_, ?_, ?_⟩ <;>
    norm_num [grade_question_with_context, successGrade, fallbackGrade,
      applyIndividualScores, clamp0100, pyInt, qX, gaX, opX]

end QuizAI
